import Mathlib

/-!
# redirector: DoH resolution and IP-pinned redirect following

A shallow embedding of `main.go` (`redirectHandler`, `resolveDoH`,
`followRedirects`, `portForScheme`) and the properties proved about it.

* Go's multiple return values `(value, error)` are kept as records with an
  `err : Option String` field (`none` is Go's `nil` error), so that "an error is
  returned together with a nil chain" is a statement and not a typing artefact.
* The Go standard library (`net/url`, `net.ParseIP`) is an interface `Lib`; the
  network is an interface `World` whose answers may depend on everything that
  happened before.  Every general theorem holds for all `Lib` and all `World`.
* Every call that touches the network, and every entry into `resolveDoH` and
  `followRedirects`, is appended to an event log that is threaded through the
  functions; the log is what the frame properties talk about.
-/

namespace Redirector

/-! ## Data model -/

/-- The fields of Go's `net/url.URL` that the program or the library interface reads. -/
structure URL where
  Scheme : String
  Opaque : String
  Host : String
  Path : String
  RawQuery : String
  Fragment : String
deriving DecidableEq, Repr

/-- `(*URL).IsAbs`: the URL has a non-empty scheme. -/
def URL.IsAbs (u : URL) : Bool := u.Scheme != ""

/-- `type redirectStep struct { URL string; Status int }`. -/
structure redirectStep where
  URL : String
  Status : Int
deriving DecidableEq, Repr

/-- What `followRedirects` reads from an `*http.Response`: `resp.StatusCode` and
`resp.Header.Get("Location")`, which is `""` when the header is absent. -/
structure Response where
  StatusCode : Int
  Location : String
deriving DecidableEq, Repr

/-- One request of the tracing loop, as `client.Do(req)` sees it: the request URL
(`currentURL.String()`), `req.Host`, the TLS `ServerName`, and the address the
`DialContext` closure dials, `net.JoinHostPort(ip, portForScheme(scheme))`. -/
structure HopRequest where
  url : String
  host : String
  serverName : String
  ip : String
  port : String
deriving DecidableEq, Repr

/-- The observable effects of a run, in the order they happen. -/
inductive Event where
  /-- entry into `resolveDoH(dohURL, hostname)` -/
  | resolveCall (dohURL hostname : String)
  /-- entry into `followRedirects(originalURL, ip)` -/
  | followCall (originalURL : URL) (ip : String)
  /-- `http.DefaultClient.Do(req)` inside `resolveDoH`, for the request URL -/
  | dohGet (reqURL : String)
  /-- `client.Do(req)` inside `followRedirects` -/
  | hopGet (req : HopRequest)
deriving DecidableEq, Repr

/-- The standard-library functions the program calls.
`urlParse` is `url.Parse`, `urlString` is `(*URL).String`, `hostname` is
`(*URL).Hostname`, `resolveReference` is `(*URL).ResolveReference` (documented by
Go as RFC 3986 section 5.2 reference resolution), and `parseIP d` is
`net.ParseIP(d)` followed by `IP.String()`, `none` when `ParseIP` returns `nil`. -/
structure Lib where
  urlParse : String → Except String URL
  urlString : URL → String
  hostname : URL → String
  resolveReference : URL → URL → URL
  parseIP : String → Option String

/-- The network.  Both functions receive the event log so far, so the same request
may be answered differently at different moments of a run.
`clientDo` is `client.Do(req)` of the tracing loop (redirects are never followed
by the client: `CheckRedirect` returns `http.ErrUseLastResponse`).
`defaultDo` is `http.DefaultClient.Do(req)` of `resolveDoH` together with
`json.NewDecoder(resp.Body).Decode(&result)`: a transport error, or else either a
decoding error or the `data` strings of `Answer` in response order. -/
structure World where
  clientDo : List Event → HopRequest → Except String Response
  defaultDo : List Event → String → Except String (Except String (List String))

/-! ## `resolveDoH` -/

/-- `http.NewRequest("GET", rawurl, nil)`: with a valid method and no body its only
failure is that of `url.Parse(rawurl)`. -/
def newRequestErr (L : Lib) (rawurl : String) : Option String :=
  match L.urlParse rawurl with
  | .error e => some e
  | .ok _ => none

/-- The result pair `(string, error)` of `resolveDoH`, with the event log. -/
structure ResolveResult where
  ip : String
  err : Option String
  events : List Event
deriving DecidableEq, Repr

/-- The loop `for _, answer := range result.Answer` of `resolveDoH`: the string form
of the first entry that `net.ParseIP` accepts. -/
def firstValidIP (L : Lib) : List String → Option String
  | [] => none
  | d :: rest =>
    match L.parseIP d with
    | some ip => some ip
    | none => firstValidIP L rest

/-- `fmt.Sprintf("%s?name=%s&type=A", dohURL, hostname)`. -/
def dohRequestURL (dohURL hostname : String) : String :=
  dohURL ++ "?name=" ++ hostname ++ "&type=A"

/-- `func resolveDoH(dohURL string, hostname string) (string, error)`. -/
def resolveDoH (L : Lib) (W : World) (ev : List Event) (dohURL hostname : String) :
    ResolveResult :=
  let reqURL := dohRequestURL dohURL hostname
  let ev1 := ev ++ [Event.resolveCall dohURL hostname]
  match newRequestErr L reqURL with
  | some e => ⟨"", some e, ev1⟩
  | none =>
    let ev2 := ev1 ++ [Event.dohGet reqURL]
    match W.defaultDo ev1 reqURL with
    | .error e => ⟨"", some e, ev2⟩
    | .ok (.error e) => ⟨"", some e, ev2⟩
    | .ok (.ok answers) =>
      match firstValidIP L answers with
      | some ip => ⟨ip, none, ev2⟩
      | none => ⟨"", some "no valid A record found", ev2⟩

/-! ## `followRedirects` -/

/-- `func portForScheme(scheme string) string`. -/
def portForScheme (scheme : String) : String :=
  if scheme = "https" then "443" else "80"

/-- `const maxRedirects = 10`. -/
def maxRedirects : Nat := 10

/-- The fallback endpoint written into `followRedirects`. -/
def fallbackDoH : String := "https://dns.google/resolve"

/-- The variables of `followRedirects` that live across loop iterations, with the
event log. -/
structure LoopState where
  chain : List redirectStep
  currentURL : URL
  host : String
  ip : String
  events : List Event
deriving DecidableEq, Repr

/-- The result pair `([]redirectStep, error)` of `followRedirects`, with the event
log. -/
structure FollowResult where
  chain : List redirectStep
  err : Option String
  events : List Event
deriving DecidableEq, Repr

/-- How one iteration of the `for` loop ends. -/
inductive Outcome where
  /-- the end of the body is reached: the loop goes on with the next `i` -/
  | next (st : LoopState)
  /-- `break` -/
  | brk (st : LoopState)
  /-- `return nil, err` -/
  | fail (err : String) (events : List Event)
deriving DecidableEq, Repr

/-- The request that an iteration starting in `st` hands to `client.Do`. -/
def hopRequest (L : Lib) (st : LoopState) : HopRequest where
  url := L.urlString st.currentURL
  host := st.host
  serverName := st.host
  ip := st.ip
  port := portForScheme st.currentURL.Scheme

/-- The redirect target: `url.Parse(loc)` followed by
`if !newURL.IsAbs() { newURL = currentURL.ResolveReference(newURL) }`. -/
def redirectTarget (L : Lib) (cur : URL) (loc : String) : Except String URL :=
  match L.urlParse loc with
  | .error e => .error e
  | .ok newURL => .ok (if !newURL.IsAbs then L.resolveReference cur newURL else newURL)

/-- The part of the loop body after `client.Do` has returned `resp` without error:
append the hop to `chain`, test the status and the `Location` header, compute the
redirect target and re-resolve when its hostname is not `host`. -/
def processResponse (L : Lib) (W : World) (st : LoopState) (resp : Response) : Outcome :=
  let ev := st.events ++ [Event.hopGet (hopRequest L st)]
  let chain := st.chain ++ [⟨L.urlString st.currentURL, resp.StatusCode⟩]
  if resp.StatusCode < 300 ∨ resp.StatusCode ≥ 400 then
    .brk { st with chain := chain, events := ev }
  else if resp.Location = "" then
    .brk { st with chain := chain, events := ev }
  else
    match redirectTarget L st.currentURL resp.Location with
    | .error e => .fail e ev
    | .ok newURL =>
      let newHost := L.hostname newURL
      if newHost ≠ st.host then
        let r := resolveDoH L W ev fallbackDoH newHost
        match r.err with
        | some e => .fail ("failed to resolve " ++ newHost ++ ": " ++ e) r.events
        | none =>
          .next { chain := chain, currentURL := newURL, host := newHost, ip := r.ip,
                  events := r.events }
      else
        .next { chain := chain, currentURL := newURL, host := st.host, ip := st.ip,
                events := ev }

/-- The body of `for i := 0; i < maxRedirects; i++` in `followRedirects`: build the
request, send it, and process the response. -/
def loopBody (L : Lib) (W : World) (st : LoopState) : Outcome :=
  match newRequestErr L (L.urlString st.currentURL) with
  | some e => .fail e st.events
  | none =>
    match W.clientDo st.events (hopRequest L st) with
    | .error e => .fail e (st.events ++ [Event.hopGet (hopRequest L st)])
    | .ok resp => processResponse L W st resp

/-- The `for` loop with `n = maxRedirects - i` iterations left, and the
`return chain, nil` after it. -/
def followLoop (L : Lib) (W : World) : Nat → LoopState → FollowResult
  | 0, st => ⟨st.chain, none, st.events⟩
  | n + 1, st =>
    match loopBody L W st with
    | .next st1 => followLoop L W n st1
    | .brk st1 => ⟨st1.chain, none, st1.events⟩
    | .fail e ev => ⟨[], some e, ev⟩

/-- The state in which `followRedirects` enters its loop: `chain` is nil,
`currentURL := *originalURL`, `host := originalURL.Host`. -/
def initState (ev : List Event) (originalURL : URL) (ip : String) : LoopState where
  chain := []
  currentURL := originalURL
  host := originalURL.Host
  ip := ip
  events := ev ++ [Event.followCall originalURL ip]

/-- `func followRedirects(originalURL *url.URL, ip string) ([]redirectStep, error)`. -/
def followRedirects (L : Lib) (W : World) (ev : List Event) (originalURL : URL)
    (ip : String) : FollowResult :=
  followLoop L W maxRedirects (initState ev originalURL ip)

/-! ## The hops of a run -/

/-- The state in which iteration `i` (counted from 0) of the loop starts, in the run
that enters the loop in `s0`; `none` when the run has ended before. -/
def stateAt (L : Lib) (W : World) (s0 : LoopState) : Nat → Option LoopState
  | 0 => some s0
  | i + 1 =>
    match stateAt L W s0 i with
    | none => none
    | some st =>
      match loopBody L W st with
      | .next st1 => some st1
      | _ => none

/-- The response that the iteration starting in `st` receives; `none` when the
request cannot be built or `client.Do` fails. -/
def hopResponse (L : Lib) (W : World) (st : LoopState) : Option Response :=
  match newRequestErr L (L.urlString st.currentURL) with
  | some _ => none
  | none =>
    match W.clientDo st.events (hopRequest L st) with
    | .error _ => none
    | .ok resp => some resp

/-- The response received at hop `i` (counted from 0) of the run of
`followRedirects`; `none` when the run does not get that far. -/
def responseAt (L : Lib) (W : World) (ev : List Event) (originalURL : URL) (ip : String)
    (i : Nat) : Option Response :=
  (stateAt L W (initState ev originalURL ip) i).bind (hopResponse L W)

/-- The requests of the tracing loop in an event log, in order. -/
def hopRequests : List Event → List HopRequest
  | [] => []
  | Event.hopGet q :: rest => q :: hopRequests rest
  | _ :: rest => hopRequests rest

/-- The invocations of `resolveDoH` in an event log, in order. -/
def resolveCalls : List Event → List (String × String)
  | [] => []
  | Event.resolveCall d h :: rest => (d, h) :: resolveCalls rest
  | _ :: rest => resolveCalls rest

/-- The hop that an iteration appends to `chain`. -/
def hopStep (L : Lib) (st : LoopState) (resp : Response) : redirectStep :=
  ⟨L.urlString st.currentURL, resp.StatusCode⟩

/-- The event log right after the request of the iteration starting in `st`. -/
def hopEvents (L : Lib) (st : LoopState) : List Event :=
  st.events ++ [Event.hopGet (hopRequest L st)]

/-- The re-resolution that the iteration started in `st` performs for the redirect
target `newURL`: `resolveDoH("https://dns.google/resolve", newURL.Hostname())`, called
right after the request of that iteration. -/
def reResolution (L : Lib) (W : World) (st : LoopState) (newURL : URL) : ResolveResult :=
  resolveDoH L W (hopEvents L st) fallbackDoH (L.hostname newURL)

/-! ## `redirectHandler` -/

/-- What `redirectHandler` reads from the incoming request: `r.Method` and the
values `r.URL.Query().Get("doh")`, `r.URL.Query().Get("url")` (`""` when the
parameter is missing). -/
structure HandlerRequest where
  method : String
  doh : String
  rawURL : String
deriving DecidableEq, Repr

/-- What `redirectHandler` writes: through `http.Error(w, msg, code)` a status and a
message, or the JSON encoding of the chain with the default status 200. -/
inductive HandlerResponse where
  | httpError (msg : String) (code : Nat)
  | json (chain : List redirectStep)
deriving DecidableEq, Repr

/-- `func redirectHandler(w http.ResponseWriter, r *http.Request)`, with the event
log of the request. -/
def redirectHandler (L : Lib) (W : World) (r : HandlerRequest) :
    HandlerResponse × List Event :=
  if r.method ≠ "GET" then
    (.httpError "Only GET allowed" 405, [])
  else if r.doh = "" ∨ r.rawURL = "" then
    (.httpError "Missing 'doh' or 'url' parameters" 400, [])
  else
    match L.urlParse r.rawURL with
    | .error _ => (.httpError "Invalid 'url' parameter" 400, [])
    | .ok parsedURL =>
      if parsedURL.Scheme = "" ∨ parsedURL.Host = "" then
        (.httpError "Invalid 'url' parameter" 400, [])
      else
        let rr := resolveDoH L W [] r.doh (L.hostname parsedURL)
        match rr.err with
        | some e => (.httpError ("DoH resolution failed: " ++ e) 502, rr.events)
        | none =>
          let fr := followRedirects L W rr.events parsedURL rr.ip
          match fr.err with
          | some e => (.httpError ("Failed to follow redirects: " ++ e) 502, fr.events)
          | none => (.json fr.chain, fr.events)

/-! ## A reference instance of the library

`refLib` implements the `Lib` interface by structural recursion on character
lists, so that the model can be evaluated on concrete inputs.  It follows
`net/url` (`Parse`, `String`, `Hostname`, `ResolveReference` with its RFC 3986
dot-segment removal) on URLs without userinfo and without percent-escapes, and
`net.ParseIP` on dotted-decimal IPv4 literals.  The general theorems do not
depend on it. -/

namespace Ref

/-- `strings.Cut(s, sep)` for a one-byte separator: before, after, found. -/
def cut (sep : Char) : List Char → List Char × List Char × Bool
  | [] => ([], [], false)
  | c :: cs =>
    if c = sep then ([], cs, true)
    else
      let r := cut sep cs
      (c :: r.1, r.2.1, r.2.2)

/-- `strings.LastIndexByte(s, sep)`, `none` for `-1`. -/
def lastIndexOf (sep : Char) (s : List Char) : Option Nat :=
  let j := s.reverse.indexOf sep
  if j = s.length then none else some (s.length - 1 - j)

/-- `strings.Split(s, sep)` for a one-byte separator. -/
def splitOn (sep : Char) : List Char → List (List Char)
  | [] => [[]]
  | c :: cs =>
    if c = sep then [] :: splitOn sep cs
    else
      match splitOn sep cs with
      | [] => [[c]]
      | x :: xs => (c :: x) :: xs

/-- ASCII control characters, which `url.Parse` rejects. -/
def isCTL (c : Char) : Bool := c.toNat < 32 || c.toNat = 127

/-- ASCII lower-casing, as `strings.ToLower` does on a scheme. -/
def lowerChar (c : Char) : Char :=
  if 65 ≤ c.toNat ∧ c.toNat ≤ 90 then Char.ofNat (c.toNat + 32) else c

/-- The scan of `getScheme`: `seen` is the part of `raw` already read. -/
def getSchemeFrom (raw : List Char) :
    List Char → List Char → Except String (List Char × List Char)
  | _, [] => .ok ([], raw)
  | seen, c :: cs =>
    if c.isAlpha then getSchemeFrom raw (seen ++ [c]) cs
    else if c.isDigit ∨ c = '+' ∨ c = '-' ∨ c = '.' then
      if seen = [] then .ok ([], raw) else getSchemeFrom raw (seen ++ [c]) cs
    else if c = ':' then
      if seen = [] then .error "missing protocol scheme" else .ok (seen, cs)
    else .ok ([], raw)

/-- `getScheme(rawURL)`: the scheme and what follows its colon. -/
def getScheme (raw : List Char) : Except String (List Char × List Char) :=
  getSchemeFrom raw [] raw

/-- `validOptionalPort(port)`: empty, or a colon followed by digits only. -/
def validOptionalPort : List Char → Bool
  | [] => true
  | c :: cs => c = ':' && cs.all Char.isDigit

/-- `parseHost(host)`, reduced to its port check. -/
def parseHost (host : List Char) : Except String (List Char) :=
  if host.head? = some '[' then
    match lastIndexOf ']' host with
    | none => .error "missing ']' in host"
    | some i =>
      if validOptionalPort (host.drop (i + 1)) then .ok host
      else .error "invalid port after host"
  else
    match lastIndexOf ':' host with
    | none => .ok host
    | some i =>
      if validOptionalPort (host.drop i) then .ok host
      else .error "invalid port after host"

/-- `url.Parse(rawURL)`. -/
def parse (rawURL : String) : Except String URL :=
  let c1 := cut '#' rawURL.data
  let u := c1.1
  let frag := c1.2.1
  if u.any isCTL then .error "net/url: invalid control character in URL"
  else
    match getScheme u with
    | .error e => .error e
    | .ok (scheme0, rest0) =>
      let scheme := scheme0.map lowerChar
      let c2 := cut '?' rest0
      let rest := c2.1
      let query := c2.2.1
      if rest.head? ≠ some '/' ∧ scheme ≠ [] then
        .ok ⟨String.mk scheme, String.mk rest, "", "", String.mk query, String.mk frag⟩
      else if rest.head? ≠ some '/' ∧ (cut '/' rest).1.contains ':' then
        .error "first path segment in URL cannot contain colon"
      else if (scheme ≠ [] ∨ ¬ ("///".data).isPrefixOf rest) ∧ ("//".data).isPrefixOf rest then
        let c3 := cut '/' (rest.drop 2)
        let authority := c3.1
        let path := if c3.2.2 then '/' :: c3.2.1 else []
        match parseHost authority with
        | .error e => .error e
        | .ok host =>
          .ok ⟨String.mk scheme, "", String.mk host, String.mk path, String.mk query,
               String.mk frag⟩
      else
        .ok ⟨String.mk scheme, "", "", String.mk rest, String.mk query, String.mk frag⟩

/-- `(*URL).String()`. -/
def toString (u : URL) : String :=
  let s1 := if u.Scheme ≠ "" then u.Scheme ++ ":" else ""
  let s2 :=
    if u.Opaque ≠ "" then s1 ++ u.Opaque
    else
      let a :=
        if (u.Scheme ≠ "" ∨ u.Host ≠ "") ∧ (u.Host ≠ "" ∨ u.Path ≠ "") then
          s1 ++ "//" ++ u.Host
        else s1
      let b := if u.Path ≠ "" ∧ u.Path.data.head? ≠ some '/' ∧ u.Host ≠ "" then a ++ "/" else a
      let c := if b = "" ∧ (cut '/' u.Path.data).1.contains ':' then "./" else b
      c ++ u.Path
  let s3 := if u.RawQuery ≠ "" then s2 ++ "?" ++ u.RawQuery else s2
  if u.Fragment ≠ "" then s3 ++ "#" ++ u.Fragment else s3

/-- `splitHostPort(hostPort).host`, which is what `(*URL).Hostname()` returns. -/
def hostname (u : URL) : String :=
  let hp := u.Host.data
  let h1 :=
    match lastIndexOf ':' hp with
    | none => hp
    | some i => if validOptionalPort (hp.drop i) then hp.take i else hp
  if h1.head? = some '[' ∧ h1.getLast? = some ']' then String.mk ((h1.drop 1).dropLast)
  else String.mk h1

/-- One round of the element loop of `resolvePath`: the buffer and `first`. -/
def resolveStep (st : List Char × Bool) (el : List Char) : List Char × Bool :=
  if el = ['.'] then (st.1, false)
  else if el = ['.', '.'] then
    let str := st.1.drop 1
    match lastIndexOf '/' str with
    | none => (['/'], true)
    | some i => ('/' :: str.take i, st.2)
  else ((if st.2 then st.1 else st.1 ++ ['/']) ++ el, false)

/-- `resolvePath(base, ref)`: merge and remove dot segments (RFC 3986 section 5.2). -/
def resolvePath (base ref : List Char) : List Char :=
  let full :=
    match ref with
    | [] => base
    | c :: _ =>
      if c ≠ '/' then
        match lastIndexOf '/' base with
        | none => ref
        | some i => base.take (i + 1) ++ ref
      else ref
  if full = [] then []
  else
    let elems := splitOn '/' full
    let dst := (elems.foldl resolveStep (['/'], true)).1
    let last := elems.getLast?
    let dst1 := if last = some ['.'] ∨ last = some ['.', '.'] then dst ++ ['/'] else dst
    match dst1 with
    | a :: '/' :: t => if a = '/' then '/' :: t else dst1
    | _ => dst1

/-- `(*URL).ResolveReference(ref)`. -/
def resolveReference (u ref : URL) : URL :=
  let scheme := if ref.Scheme = "" then u.Scheme else ref.Scheme
  if ref.Scheme ≠ "" ∨ ref.Host ≠ "" then
    { ref with Scheme := scheme, Path := String.mk (resolvePath ref.Path.data []) }
  else if ref.Opaque ≠ "" then
    { ref with Scheme := scheme, Host := "", Path := "" }
  else
    let keep := ref.Path = "" ∧ ref.RawQuery = ""
    let query := if keep then u.RawQuery else ref.RawQuery
    let frag := if keep ∧ ref.Fragment = "" then u.Fragment else ref.Fragment
    if ref.Path = "" ∧ u.Opaque ≠ "" then
      ⟨scheme, u.Opaque, "", "", query, frag⟩
    else
      ⟨scheme, ref.Opaque, u.Host, String.mk (resolvePath u.Path.data ref.Path.data), query,
       frag⟩

/-- One decimal field of an IPv4 literal: one to three digits, no leading zero, at
most 255. -/
def validOctet (cs : List Char) : Bool :=
  cs ≠ [] && cs.length ≤ 3 && cs.all Char.isDigit
    && !(1 < cs.length && cs.head? = some '0')
    && cs.foldl (fun a c => 10 * a + (c.toNat - 48)) 0 ≤ 255

/-- `net.ParseIP(s).String()` on dotted-decimal IPv4 literals, whose string form is
the literal itself. -/
def parseIP (s : String) : Option String :=
  match splitOn '.' s.data with
  | [a, b, c, d] =>
    if validOctet a && validOctet b && validOctet c && validOctet d then some s else none
  | _ => none

end Ref

/-- The reference library instance. -/
def refLib : Lib where
  urlParse := Ref.parse
  urlString := Ref.toString
  hostname := Ref.hostname
  resolveReference := Ref.resolveReference
  parseIP := Ref.parseIP

/-! ## Concrete inputs -/

/-- The URL `http://example.com/a`, as `url.Parse` returns it. -/
def urlA : URL := ⟨"http", "", "example.com", "/a", "", ""⟩

/-- The URL `http://example.com/b`. -/
def urlB : URL := ⟨"http", "", "example.com", "/b", "", ""⟩

/-- The URL `http://example.com:8080/a`, as `url.Parse` returns it. -/
def urlPortA : URL := ⟨"http", "", "example.com:8080", "/a", "", ""⟩

/-- The URL `http://example.com:8080/b`. -/
def urlPortB : URL := ⟨"http", "", "example.com:8080", "/b", "", ""⟩

/-- A DoH service that answers every query with the single record `203.0.113.9`. -/
def dohAnswers (_ : List Event) (_ : String) : Except String (Except String (List String)) :=
  .ok (.ok ["203.0.113.9"])

/-- A DoH service that cannot be reached. -/
def dohDown (_ : List Event) (_ : String) : Except String (Except String (List String)) :=
  .error "dial tcp: connection refused"

/-- A server that answers the first request with `301` and `Location: /b`, and every
later one with `200`. -/
def serverMovedOnce (ev : List Event) (_ : HopRequest) : Except String Response :=
  if (hopRequests ev).length = 0 then .ok ⟨301, "/b"⟩ else .ok ⟨200, ""⟩

/-- A server that answers the first request with `301` and `Location: /b`, and every
later one with `302` and no `Location` header. -/
def serverDangling (ev : List Event) (_ : HopRequest) : Except String Response :=
  if (hopRequests ev).length = 0 then .ok ⟨301, "/b"⟩ else .ok ⟨302, ""⟩

/-- A server that redirects within the host on its first nine answers and to another
host on every later one. -/
def serverTenth (ev : List Event) (_ : HopRequest) : Except String Response :=
  if (hopRequests ev).length < 9 then .ok ⟨302, "/a"⟩
  else .ok ⟨302, "http://elsewhere.example/"⟩

/-- The URL `http://other.example/x`. -/
def urlOther : URL := ⟨"http", "", "other.example", "/x", "", ""⟩

/-- A server that answers the first request with `301` and
`Location: http://other.example/x`, and every later one with `200`. -/
def serverMovedAway (ev : List Event) (_ : HopRequest) : Except String Response :=
  if (hopRequests ev).length = 0 then .ok ⟨301, "http://other.example/x"⟩ else .ok ⟨200, ""⟩

/-- A server that answers every request with `302` and `Location: /a`. -/
def serverLoop (_ : List Event) (_ : HopRequest) : Except String Response :=
  .ok ⟨302, "/a"⟩

/-- A DoH service whose body decodes to the single record `198.51.100.7`. -/
def dohExample (_ : List Event) (_ : String) : Except String (Except String (List String)) :=
  .ok (.ok ["198.51.100.7"])

/-! ## The reference library on the inputs used below -/

/-- The reference library resolves the three relative forms of a `Location` (absolute
path, protocol-relative reference, relative path) against `http://example.com/a` as
RFC 3986 section 5.2 prescribes, and strips the port in `Hostname`. -/
theorem refLib_relative_forms :
    refLib.urlParse "http://example.com/a" = .ok urlA ∧
    (redirectTarget refLib urlA "/b").map refLib.urlString = .ok "http://example.com/b" ∧
    (redirectTarget refLib urlA "//otherhost/path").map refLib.urlString =
      .ok "http://otherhost/path" ∧
    (redirectTarget refLib urlA "path2").map refLib.urlString =
      .ok "http://example.com/path2" ∧
    refLib.hostname urlPortA = "example.com" := by
  refine ⟨by rfl, by rfl, by rfl, by rfl, by rfl⟩

/-! ## Properties of `resolveDoH` -/

theorem firstValidIP_eq_none_iff (L : Lib) (answers : List String) :
    firstValidIP L answers = none ↔ ∀ d ∈ answers, L.parseIP d = none := by
  induction answers with
  | nil => simp [firstValidIP]
  | cons d rest ih =>
    cases h : L.parseIP d with
    | none => simp [firstValidIP, h, ih]
    | some ip => simp [firstValidIP, h]

theorem firstValidIP_some_mem (L : Lib) (answers : List String) (ip : String)
    (h : firstValidIP L answers = some ip) : ∃ d ∈ answers, L.parseIP d = some ip := by
  induction answers with
  | nil => simp [firstValidIP] at h
  | cons d rest ih =>
    cases hd : L.parseIP d with
    | none =>
      simp only [firstValidIP, hd] at h
      obtain ⟨x, hx, hx2⟩ := ih h
      exact ⟨x, List.mem_cons_of_mem _ hx, hx2⟩
    | some ip2 =>
      simp only [firstValidIP, hd, Option.some.injEq] at h
      exact ⟨d, List.mem_cons_self _ _, by rw [hd, h]⟩

theorem firstValidIP_skips (L : Lib) (pre post : List String) (d ip : String)
    (hpre : ∀ x ∈ pre, L.parseIP x = none) (hd : L.parseIP d = some ip) :
    firstValidIP L (pre ++ d :: post) = some ip := by
  induction pre with
  | nil => simp [firstValidIP, hd]
  | cons x xs ih =>
    have hx : L.parseIP x = none := hpre x (List.mem_cons_self _ _)
    have hxs : ∀ y ∈ xs, L.parseIP y = none := fun y hy => hpre y (List.mem_cons_of_mem _ hy)
    simp [firstValidIP, hx, ih hxs]

/-- Every invocation of `resolveDoH` logs its own entry first and then at most the one
GET it sends. -/
theorem resolveDoH_events (L : Lib) (W : World) (ev : List Event) (dohURL hostname : String) :
    (resolveDoH L W ev dohURL hostname).events = ev ++ [Event.resolveCall dohURL hostname] ∨
    (resolveDoH L W ev dohURL hostname).events =
      ev ++ [Event.resolveCall dohURL hostname, Event.dohGet (dohRequestURL dohURL hostname)] := by
  cases h1 : newRequestErr L (dohRequestURL dohURL hostname) with
  | some e => simp [resolveDoH, h1]
  | none =>
    right
    cases h2 : W.defaultDo (ev ++ [Event.resolveCall dohURL hostname])
        (dohRequestURL dohURL hostname) with
    | error e => simp [resolveDoH, h1, h2]
    | ok body =>
      cases body with
      | error e => simp [resolveDoH, h1, h2]
      | ok answers =>
        cases h3 : firstValidIP L answers <;> simp [resolveDoH, h1, h2, h3]

/-- C5. For a DoH response whose body decodes to the Answer sequence
`pre ++ d :: post`, where no entry of `pre` is a valid IP literal and `d` is one,
`resolveDoH` returns the IP of `d` (the string form `net.ParseIP(d).String()`) and no
error: it walks `Answer` in response order, skips the invalid entries without failing
on them, and stops at the first valid one. -/
theorem resolveDoH_returns_first_valid_ip (L : Lib) (W : World) (ev : List Event)
    (dohURL hostname : String) (pre post : List String) (d ip : String)
    (hreq : newRequestErr L (dohRequestURL dohURL hostname) = none)
    (hbody : W.defaultDo (ev ++ [Event.resolveCall dohURL hostname])
      (dohRequestURL dohURL hostname) = .ok (.ok (pre ++ d :: post)))
    (hpre : ∀ x ∈ pre, L.parseIP x = none) (hd : L.parseIP d = some ip) :
    (resolveDoH L W ev dohURL hostname).ip = ip ∧
    (resolveDoH L W ev dohURL hostname).err = none := by
  unfold resolveDoH
  simp [hreq, hbody, firstValidIP_skips L pre post d ip hpre hd]

/-- C6. `resolveDoH` returns an error exactly when the HTTP request fails (it cannot be
built, or the transport fails), the body does not decode, or no Answer entry is a valid
IP (an empty or absent Answer included); with an error it returns the empty string as
IP, and without one the IP it returns is that of an Answer entry. -/
theorem resolveDoH_fails_iff (L : Lib) (W : World) (ev : List Event)
    (dohURL hostname : String) :
    ((resolveDoH L W ev dohURL hostname).err ≠ none ↔
      (newRequestErr L (dohRequestURL dohURL hostname) ≠ none ∨
       (∃ e, W.defaultDo (ev ++ [Event.resolveCall dohURL hostname])
          (dohRequestURL dohURL hostname) = .error e) ∨
       (∃ e, W.defaultDo (ev ++ [Event.resolveCall dohURL hostname])
          (dohRequestURL dohURL hostname) = .ok (.error e)) ∨
       (∃ answers, W.defaultDo (ev ++ [Event.resolveCall dohURL hostname])
          (dohRequestURL dohURL hostname) = .ok (.ok answers) ∧
          ∀ d ∈ answers, L.parseIP d = none))) ∧
    ((resolveDoH L W ev dohURL hostname).err ≠ none →
      (resolveDoH L W ev dohURL hostname).ip = "") ∧
    ((resolveDoH L W ev dohURL hostname).err = none →
      ∃ answers d, W.defaultDo (ev ++ [Event.resolveCall dohURL hostname])
          (dohRequestURL dohURL hostname) = .ok (.ok answers) ∧ d ∈ answers ∧
        L.parseIP d = some (resolveDoH L W ev dohURL hostname).ip) := by
  cases h1 : newRequestErr L (dohRequestURL dohURL hostname) with
  | some e => simp [resolveDoH, h1]
  | none =>
    cases h2 : W.defaultDo (ev ++ [Event.resolveCall dohURL hostname])
        (dohRequestURL dohURL hostname) with
    | error e => simp [resolveDoH, h1, h2]
    | ok body =>
      cases body with
      | error e => simp [resolveDoH, h1, h2]
      | ok answers =>
        cases h3 : firstValidIP L answers with
        | none =>
          have hall := (firstValidIP_eq_none_iff L answers).1 h3
          simp [resolveDoH, h1, h2, h3]
          exact hall
        | some ip =>
          obtain ⟨d, hd, hd2⟩ := firstValidIP_some_mem L answers ip h3
          simp only [resolveDoH, h1, h2, h3]
          refine ⟨?_, ?_, ?_⟩
          · simp only [ne_eq, not_true_eq_false, false_iff]
            rintro (h | ⟨e, h⟩ | ⟨e, h⟩ | ⟨as, h, hall⟩)
            · exact h.elim
            · cases h
            · cases h
            · simp only [Except.ok.injEq] at h
              subst h
              have := hall d hd
              rw [hd2] at this
              cases this
          · intro h
            exact absurd rfl h
          · intro _
            exact ⟨answers, d, rfl, hd, hd2⟩

/-! ## One iteration of the loop -/

theorem loopBody_of_response (L : Lib) (W : World) (st : LoopState) (resp : Response)
    (h : hopResponse L W st = some resp) : loopBody L W st = processResponse L W st resp := by
  unfold hopResponse at h
  cases h1 : newRequestErr L (L.urlString st.currentURL) with
  | some e => simp [h1] at h
  | none =>
    cases h2 : W.clientDo st.events (hopRequest L st) with
    | error e => simp [h1, h2] at h
    | ok r =>
      simp only [h1, h2, Option.some.injEq] at h
      subst h
      simp [loopBody, h1, h2]

theorem loopBody_of_no_response (L : Lib) (W : World) (st : LoopState)
    (h : hopResponse L W st = none) : ∃ e ev, loopBody L W st = .fail e ev := by
  unfold hopResponse at h
  cases h1 : newRequestErr L (L.urlString st.currentURL) with
  | some e => exact ⟨e, st.events, by simp [loopBody, h1]⟩
  | none =>
    cases h2 : W.clientDo st.events (hopRequest L st) with
    | error e =>
      exact ⟨e, st.events ++ [Event.hopGet (hopRequest L st)], by simp [loopBody, h1, h2]⟩
    | ok r => simp [h1, h2] at h

theorem hopResponse_of_next (L : Lib) (W : World) (st st1 : LoopState)
    (h : loopBody L W st = .next st1) :
    ∃ resp, hopResponse L W st = some resp ∧ processResponse L W st resp = .next st1 := by
  cases hr : hopResponse L W st with
  | none =>
    obtain ⟨e, ev, he⟩ := loopBody_of_no_response L W st hr
    rw [he] at h
    cases h
  | some resp =>
    exact ⟨resp, rfl, by rw [← loopBody_of_response L W st resp hr]; exact h⟩

theorem hopResponse_of_brk (L : Lib) (W : World) (st st1 : LoopState)
    (h : loopBody L W st = .brk st1) :
    ∃ resp, hopResponse L W st = some resp ∧ processResponse L W st resp = .brk st1 := by
  cases hr : hopResponse L W st with
  | none =>
    obtain ⟨e, ev, he⟩ := loopBody_of_no_response L W st hr
    rw [he] at h
    cases h
  | some resp =>
    exact ⟨resp, rfl, by rw [← loopBody_of_response L W st resp hr]; exact h⟩

/-- A response that is not a redirect, or a redirect without `Location`, ends the loop
with the hop appended and nothing but the request logged. -/
theorem processResponse_final (L : Lib) (W : World) (st : LoopState) (resp : Response)
    (h : (resp.StatusCode < 300 ∨ resp.StatusCode ≥ 400) ∨ resp.Location = "") :
    processResponse L W st resp =
      .brk { st with chain := st.chain ++ [hopStep L st resp], events := hopEvents L st } := by
  unfold processResponse hopStep hopEvents
  by_cases h1 : resp.StatusCode < 300 ∨ resp.StatusCode ≥ 400
  · simp [h1]
  · have h2 : resp.Location = "" := by
      rcases h with h | h
      · exact absurd h h1
      · exact h
    simp [h1, h2]

/-- A redirect with a `Location` that has a target: what the rest of the body does. -/
theorem processResponse_redirect (L : Lib) (W : World) (st : LoopState) (resp : Response)
    (newURL : URL) (h300 : 300 ≤ resp.StatusCode) (h400 : resp.StatusCode < 400)
    (hloc : resp.Location ≠ "")
    (ht : redirectTarget L st.currentURL resp.Location = .ok newURL) :
    processResponse L W st resp =
      if L.hostname newURL ≠ st.host then
        match (resolveDoH L W (hopEvents L st) fallbackDoH (L.hostname newURL)).err with
        | some e => .fail ("failed to resolve " ++ L.hostname newURL ++ ": " ++ e)
            (resolveDoH L W (hopEvents L st) fallbackDoH (L.hostname newURL)).events
        | none =>
          .next { chain := st.chain ++ [hopStep L st resp], currentURL := newURL,
                  host := L.hostname newURL,
                  ip := (resolveDoH L W (hopEvents L st) fallbackDoH (L.hostname newURL)).ip,
                  events :=
                    (resolveDoH L W (hopEvents L st) fallbackDoH (L.hostname newURL)).events }
      else
        .next { chain := st.chain ++ [hopStep L st resp], currentURL := newURL,
                host := st.host, ip := st.ip, events := hopEvents L st } := by
  have h1 : ¬ (resp.StatusCode < 300 ∨ resp.StatusCode ≥ 400) := by omega
  unfold processResponse hopStep hopEvents
  simp only [h1, hloc, ht, if_false]

/-- Whenever the body reaches its end, the response was a redirect with a `Location`
whose target could be computed, and the new state records the hop and that target. -/
theorem processResponse_next (L : Lib) (W : World) (st st1 : LoopState) (resp : Response)
    (h : processResponse L W st resp = .next st1) :
    300 ≤ resp.StatusCode ∧ resp.StatusCode < 400 ∧ resp.Location ≠ "" ∧
    st1.chain = st.chain ++ [hopStep L st resp] ∧
    redirectTarget L st.currentURL resp.Location = .ok st1.currentURL := by
  by_cases h1 : resp.StatusCode < 300 ∨ resp.StatusCode ≥ 400
  · rw [processResponse_final L W st resp (Or.inl h1)] at h
    cases h
  by_cases h2 : resp.Location = ""
  · rw [processResponse_final L W st resp (Or.inr h2)] at h
    cases h
  have h300 : 300 ≤ resp.StatusCode := by omega
  have h400 : resp.StatusCode < 400 := by omega
  cases ht : redirectTarget L st.currentURL resp.Location with
  | error e =>
    unfold processResponse at h
    simp [h1, h2, ht] at h
  | ok newURL =>
    rw [processResponse_redirect L W st resp newURL h300 h400 h2 ht] at h
    refine ⟨h300, h400, h2, ?_, ?_⟩
    · split at h
      · split at h
        · cases h
        · cases h; rfl
      · cases h; rfl
    · split at h
      · split at h
        · cases h
        · cases h; rfl
      · cases h; rfl

theorem processResponse_brk (L : Lib) (W : World) (st st1 : LoopState) (resp : Response)
    (h : processResponse L W st resp = .brk st1) :
    st1.chain = st.chain ++ [hopStep L st resp] ∧ st1.events = hopEvents L st := by
  by_cases h1 : (resp.StatusCode < 300 ∨ resp.StatusCode ≥ 400) ∨ resp.Location = ""
  · rw [processResponse_final L W st resp h1] at h
    cases h
    exact ⟨rfl, rfl⟩
  · have h300 : 300 ≤ resp.StatusCode := by omega
    have h400 : resp.StatusCode < 400 := by omega
    have hloc : resp.Location ≠ "" := fun hc => h1 (Or.inr hc)
    cases ht : redirectTarget L st.currentURL resp.Location with
    | error e =>
      unfold processResponse at h
      have h1a : ¬ (resp.StatusCode < 300 ∨ resp.StatusCode ≥ 400) := fun hc => h1 (Or.inl hc)
      simp [h1a, hloc, ht] at h
    | ok newURL =>
      rw [processResponse_redirect L W st resp newURL h300 h400 hloc ht] at h
      split at h
      · split at h <;> cases h
      · cases h

/-! ## Whole runs -/

theorem getElem?_append_length_cons {α : Type} (l t : List α) (a : α) :
    (l ++ a :: t)[l.length]? = some a := by
  rw [List.getElem?_append_right (Nat.le_refl _)]
  simp

theorem stateAt_succ_some (L : Lib) (W : World) (s0 st1 : LoopState) (i : Nat)
    (h : stateAt L W s0 (i + 1) = some st1) :
    ∃ st, stateAt L W s0 i = some st ∧ loopBody L W st = .next st1 := by
  simp only [stateAt] at h
  cases hs : stateAt L W s0 i with
  | none => simp [hs] at h
  | some st =>
    cases hb : loopBody L W st with
    | next st2 =>
      simp only [hs, hb, Option.some.injEq] at h
      exact ⟨st, rfl, h ▸ hb⟩
    | brk st2 => simp [hs, hb] at h
    | fail e ev => simp [hs, hb] at h

theorem stateAt_succ_of_next (L : Lib) (W : World) (s0 st st1 : LoopState) (i : Nat)
    (hs : stateAt L W s0 i = some st) (hb : loopBody L W st = .next st1) :
    stateAt L W s0 (i + 1) = some st1 := by
  simp [stateAt, hs, hb]

/-- A run that reaches iteration `i` in state `st` continues from there as the loop
started in `st` with `i` fewer iterations left. -/
theorem followLoop_stateAt (L : Lib) (W : World) (s0 : LoopState) :
    ∀ (i n : Nat) (st : LoopState), stateAt L W s0 i = some st →
      followLoop L W (i + n) s0 = followLoop L W n st := by
  intro i
  induction i with
  | zero =>
    intro n st h
    simp only [stateAt, Option.some.injEq] at h
    subst h
    simp
  | succ i ih =>
    intro n st1 h
    obtain ⟨st, hs, hb⟩ := stateAt_succ_some L W s0 st1 i h
    have h1 : i + 1 + n = i + (n + 1) := by omega
    rw [h1, ih (n + 1) st hs]
    simp [followLoop, hb]

/-- At iteration `i` exactly `i` hops have been appended to the chain. -/
theorem stateAt_chain_length (L : Lib) (W : World) (s0 : LoopState) :
    ∀ (i : Nat) (st : LoopState), stateAt L W s0 i = some st →
      st.chain.length = s0.chain.length + i := by
  intro i
  induction i with
  | zero =>
    intro st h
    simp only [stateAt, Option.some.injEq] at h
    subst h
    simp
  | succ i ih =>
    intro st1 h
    obtain ⟨st, hs, hb⟩ := stateAt_succ_some L W s0 st1 i h
    obtain ⟨resp, _, hp⟩ := hopResponse_of_next L W st st1 hb
    have hc := (processResponse_next L W st st1 resp hp).2.2.2.1
    rw [hc, List.length_append, ih st hs]
    simp
    omega

/-- With an error the chain is nil; without one the chain is the chain so far followed
by at most `n` new hops, and by at least one when an iteration is run. -/
theorem followLoop_chain (L : Lib) (W : World) :
    ∀ (n : Nat) (st : LoopState),
      ((followLoop L W n st).err ≠ none → (followLoop L W n st).chain = []) ∧
      ((followLoop L W n st).err = none →
        ∃ t, (followLoop L W n st).chain = st.chain ++ t ∧ t.length ≤ n ∧
          (0 < n → 0 < t.length)) := by
  intro n
  induction n with
  | zero =>
    intro st
    simp [followLoop]
  | succ n ih =>
    intro st
    cases hb : loopBody L W st with
    | next st1 =>
      obtain ⟨resp, _, hp⟩ := hopResponse_of_next L W st st1 hb
      have hc := (processResponse_next L W st st1 resp hp).2.2.2.1
      have h1 : followLoop L W (n + 1) st = followLoop L W n st1 := by simp [followLoop, hb]
      rw [h1]
      refine ⟨(ih st1).1, ?_⟩
      intro he
      obtain ⟨t, ht, hlen, _⟩ := (ih st1).2 he
      refine ⟨hopStep L st resp :: t, ?_, ?_, ?_⟩
      · rw [ht, hc]
        simp
      · simp
        omega
      · intro _
        simp
    | brk st1 =>
      obtain ⟨resp, _, hp⟩ := hopResponse_of_brk L W st st1 hb
      have hc := (processResponse_brk L W st st1 resp hp).1
      have h1 : followLoop L W (n + 1) st = ⟨st1.chain, none, st1.events⟩ := by
        simp [followLoop, hb]
      rw [h1]
      refine ⟨by simp, ?_⟩
      intro _
      exact ⟨[hopStep L st resp], hc, by simp, by simp⟩
    | fail e ev =>
      have h1 : followLoop L W (n + 1) st = ⟨[], some e, ev⟩ := by simp [followLoop, hb]
      rw [h1]
      simp

/-- Entry `j` of a returned chain, counted after the entries the loop started with, is
the hop of iteration `j`: the URL in which that iteration started and the status of
the response it received. -/
theorem followLoop_entry (L : Lib) (W : World) :
    ∀ (n j : Nat) (s0 : LoopState) (step : redirectStep),
      (followLoop L W n s0).chain[s0.chain.length + j]? = some step →
      ∃ st resp, stateAt L W s0 j = some st ∧ hopResponse L W st = some resp ∧
        step = hopStep L st resp := by
  intro n
  induction n with
  | zero =>
    intro j s0 step h
    rw [show (followLoop L W 0 s0).chain = s0.chain from rfl,
      List.getElem?_eq_none (by omega)] at h
    cases h
  | succ n ih =>
    intro j s0 step h
    cases hb : loopBody L W s0 with
    | fail e ev =>
      simp [followLoop, hb] at h
    | brk st1 =>
      obtain ⟨resp, hr, hp⟩ := hopResponse_of_brk L W s0 st1 hb
      have hc := (processResponse_brk L W s0 st1 resp hp).1
      simp only [followLoop, hb, hc] at h
      cases j with
      | zero =>
        simp only [Nat.add_zero, getElem?_append_length_cons, Option.some.injEq] at h
        exact ⟨s0, resp, rfl, hr, h.symm⟩
      | succ j =>
        rw [List.getElem?_eq_none (by simp)] at h
        cases h
    | next st1 =>
      obtain ⟨resp, hr, hp⟩ := hopResponse_of_next L W s0 st1 hb
      have hc := (processResponse_next L W s0 st1 resp hp).2.2.2.1
      have h1 : followLoop L W (n + 1) s0 = followLoop L W n st1 := by simp [followLoop, hb]
      rw [h1] at h
      cases j with
      | zero =>
        have herr : (followLoop L W n st1).err = none := by
          by_contra hne
          rw [(followLoop_chain L W n st1).1 hne] at h
          simp at h
        obtain ⟨t, ht, _, _⟩ := (followLoop_chain L W n st1).2 herr
        rw [ht, hc] at h
        simp only [List.append_assoc, List.singleton_append, Nat.add_zero,
          getElem?_append_length_cons, Option.some.injEq] at h
        exact ⟨s0, resp, rfl, hr, h.symm⟩
      | succ j =>
        have hidx : s0.chain.length + (j + 1) = st1.chain.length + j := by
          rw [hc]
          simp
          omega
        rw [hidx] at h
        obtain ⟨st, r, hs, hr2, hstep⟩ := ih j st1 step h
        refine ⟨st, r, ?_, hr2, hstep⟩
        have key : ∀ (k : Nat) (x : LoopState), stateAt L W st1 k = some x →
            stateAt L W s0 (k + 1) = some x := by
          intro k
          induction k with
          | zero =>
            intro x hx
            simp only [stateAt, Option.some.injEq] at hx
            subst hx
            simp [stateAt, hb]
          | succ k ihk =>
            intro x hx
            obtain ⟨y, hy, hyb⟩ := stateAt_succ_some L W st1 x k hx
            exact stateAt_succ_of_next L W s0 y x (k + 1) (ihk y hy) hyb
        exact key j st hs

/-! ## Properties of `followRedirects` -/

theorem followRedirects_from (L : Lib) (W : World) (ev : List Event) (originalURL : URL)
    (ip : String) (i : Nat) (st : LoopState) (hi : i ≤ maxRedirects)
    (hst : stateAt L W (initState ev originalURL ip) i = some st) :
    followRedirects L W ev originalURL ip = followLoop L W (maxRedirects - i) st := by
  unfold followRedirects
  have h := followLoop_stateAt L W (initState ev originalURL ip) i (maxRedirects - i) st hst
  have h2 : i + (maxRedirects - i) = maxRedirects := by omega
  rw [h2] at h
  exact h

theorem followLoop_succ (L : Lib) (W : World) (n : Nat) (st : LoopState) :
    followLoop L W (n + 1) st =
      match loopBody L W st with
      | .next st1 => followLoop L W n st1
      | .brk st1 => ⟨st1.chain, none, st1.events⟩
      | .fail e ev => ⟨[], some e, ev⟩ := rfl

/-- C7. `followRedirects` is all-or-nothing: whenever it returns an error the chain it
returns is nil, and whenever it returns no error the chain has at least 1 and at most
10 entries; for every library, network, start URL and initial IP. -/
theorem followRedirects_all_or_nothing (L : Lib) (W : World) (ev : List Event)
    (originalURL : URL) (ip : String) :
    ((followRedirects L W ev originalURL ip).err ≠ none →
      (followRedirects L W ev originalURL ip).chain = []) ∧
    ((followRedirects L W ev originalURL ip).err = none →
      1 ≤ (followRedirects L W ev originalURL ip).chain.length ∧
      (followRedirects L W ev originalURL ip).chain.length ≤ 10) := by
  unfold followRedirects
  have h := followLoop_chain L W maxRedirects (initState ev originalURL ip)
  refine ⟨h.1, ?_⟩
  intro he
  obtain ⟨t, ht, hlen, hpos⟩ := h.2 he
  rw [ht]
  have h0 : (initState ev originalURL ip).chain = [] := rfl
  have h1 : 0 < t.length := hpos (by decide)
  have h2 : t.length ≤ 10 := hlen
  rw [h0]
  simp only [List.nil_append]
  omega

/-- C10. When a hop of `followRedirects` (iteration `i`, started in state `st`) receives
a response with a status in [300,400) and no `Location` header, the trace stops there:
`followRedirects` returns no error, the chain built so far followed by that hop as its
last entry, and an event log that ends with that hop's request, so that no further
request is sent and `resolveDoH` is not invoked after it. -/
theorem followRedirects_stops_without_location (L : Lib) (W : World) (ev : List Event)
    (originalURL : URL) (ip : String) (i : Nat) (st : LoopState) (resp : Response)
    (hi : i < maxRedirects)
    (hst : stateAt L W (initState ev originalURL ip) i = some st)
    (hresp : hopResponse L W st = some resp)
    (_h300 : 300 ≤ resp.StatusCode) (_h400 : resp.StatusCode < 400)
    (hloc : resp.Location = "") :
    followRedirects L W ev originalURL ip =
      ⟨st.chain ++ [⟨L.urlString st.currentURL, resp.StatusCode⟩], none,
       st.events ++ [Event.hopGet (hopRequest L st)]⟩ := by
  rw [followRedirects_from L W ev originalURL ip i st (Nat.le_of_lt hi) hst]
  obtain ⟨m, hm⟩ : ∃ m, maxRedirects - i = m + 1 := ⟨maxRedirects - i - 1, by omega⟩
  rw [hm, followLoop_succ, loopBody_of_response L W st resp hresp,
    processResponse_final L W st resp (Or.inr hloc)]
  rfl

theorem followRedirects_stops_without_location_witness :
    followRedirects refLib ⟨serverDangling, dohDown⟩ [] urlA "192.0.2.1" =
      ⟨[⟨"http://example.com/a", 301⟩, ⟨"http://example.com/b", 302⟩], none,
       [Event.followCall urlA "192.0.2.1",
        Event.hopGet ⟨"http://example.com/a", "example.com", "example.com", "192.0.2.1", "80"⟩,
        Event.hopGet ⟨"http://example.com/b", "example.com", "example.com", "192.0.2.1", "80"⟩]⟩ :=
  followRedirects_stops_without_location refLib ⟨serverDangling, dohDown⟩ [] urlA "192.0.2.1" 1
    ⟨[⟨"http://example.com/a", 301⟩], urlB, "example.com", "192.0.2.1",
     [Event.followCall urlA "192.0.2.1",
      Event.hopGet ⟨"http://example.com/a", "example.com", "example.com", "192.0.2.1", "80"⟩]⟩
    ⟨302, ""⟩ (by decide) (by rfl) (by rfl) (by decide) (by decide) (by rfl)

theorem hopRequests_append (a b : List Event) :
    hopRequests (a ++ b) = hopRequests a ++ hopRequests b := by
  induction a with
  | nil => rfl
  | cons e rest ih => cases e <;> simp [hopRequests, ih]

theorem resolveCalls_append (a b : List Event) :
    resolveCalls (a ++ b) = resolveCalls a ++ resolveCalls b := by
  induction a with
  | nil => rfl
  | cons e rest ih => cases e <;> simp [resolveCalls, ih]

theorem reResolution_calls (L : Lib) (W : World) (st : LoopState) (newURL : URL) :
    resolveCalls (reResolution L W st newURL).events =
      resolveCalls st.events ++ [("https://dns.google/resolve", L.hostname newURL)] ∧
    hopRequests (reResolution L W st newURL).events =
      hopRequests st.events ++ [hopRequest L st] := by
  unfold reResolution
  rcases resolveDoH_events L W (hopEvents L st) fallbackDoH (L.hostname newURL) with h | h <;>
    rw [h] <;>
    simp [hopEvents, resolveCalls_append, hopRequests_append, resolveCalls, hopRequests,
      fallbackDoH]

/-- C4. When a hop of `followRedirects` (iteration `i`, started in state `st`) receives a
redirect whose `Location` resolves to a URL with a hostname other than the current
`host`, `resolveDoH` is invoked exactly once in that iteration, with the endpoint
`https://dns.google/resolve` and the new hostname, after the request of this hop and
before any further request.  When it succeeds, the next iteration starts with the newly
resolved ip and the new host, and the request it builds carries them; when it fails,
`followRedirects` returns an error and a nil chain and sends nothing more. -/
theorem followRedirects_reresolves_new_host (L : Lib) (W : World) (ev : List Event)
    (originalURL : URL) (ip : String) (i : Nat) (st : LoopState) (resp : Response)
    (newURL : URL) (hi : i < maxRedirects)
    (hst : stateAt L W (initState ev originalURL ip) i = some st)
    (hresp : hopResponse L W st = some resp)
    (h300 : 300 ≤ resp.StatusCode) (h400 : resp.StatusCode < 400)
    (hloc : resp.Location ≠ "")
    (ht : redirectTarget L st.currentURL resp.Location = .ok newURL)
    (hhost : L.hostname newURL ≠ st.host) :
    (resolveCalls (reResolution L W st newURL).events =
      resolveCalls st.events ++ [("https://dns.google/resolve", L.hostname newURL)] ∧
     hopRequests (reResolution L W st newURL).events =
      hopRequests st.events ++ [hopRequest L st]) ∧
    ((reResolution L W st newURL).err = none →
      ∃ st1, stateAt L W (initState ev originalURL ip) (i + 1) = some st1 ∧
        st1.events = (reResolution L W st newURL).events ∧
        st1.currentURL = newURL ∧
        (hopRequest L st1).ip = (reResolution L W st newURL).ip ∧
        (hopRequest L st1).host = L.hostname newURL ∧
        (hopRequest L st1).serverName = L.hostname newURL) ∧
    ((reResolution L W st newURL).err ≠ none →
      (followRedirects L W ev originalURL ip).err ≠ none ∧
      (followRedirects L W ev originalURL ip).chain = [] ∧
      (followRedirects L W ev originalURL ip).events = (reResolution L W st newURL).events) := by
  have hbody : loopBody L W st =
      match (reResolution L W st newURL).err with
      | some e => .fail ("failed to resolve " ++ L.hostname newURL ++ ": " ++ e)
          (reResolution L W st newURL).events
      | none =>
        .next { chain := st.chain ++ [hopStep L st resp], currentURL := newURL,
                host := L.hostname newURL, ip := (reResolution L W st newURL).ip,
                events := (reResolution L W st newURL).events } := by
    rw [loopBody_of_response L W st resp hresp,
      processResponse_redirect L W st resp newURL h300 h400 hloc ht, if_pos hhost]
    rfl
  refine ⟨reResolution_calls L W st newURL, ?_, ?_⟩
  · intro hok
    rw [hok] at hbody
    exact ⟨_, stateAt_succ_of_next L W _ st _ i hst hbody, rfl, rfl, rfl, rfl, rfl⟩
  · intro herr
    obtain ⟨e, he⟩ := Option.ne_none_iff_exists'.1 herr
    rw [he] at hbody
    rw [followRedirects_from L W ev originalURL ip i st (Nat.le_of_lt hi) hst]
    obtain ⟨m, hm⟩ : ∃ m, maxRedirects - i = m + 1 := ⟨maxRedirects - i - 1, by omega⟩
    rw [hm, followLoop_succ, hbody]
    simp

theorem followRedirects_reresolves_new_host_witness :
    resolveCalls (reResolution refLib ⟨serverMovedAway, dohAnswers⟩
        (initState [] urlA "192.0.2.1") urlOther).events =
      [("https://dns.google/resolve", "other.example")] ∧
    followRedirects refLib ⟨serverMovedAway, dohAnswers⟩ [] urlA "192.0.2.1" =
      ⟨[⟨"http://example.com/a", 301⟩, ⟨"http://other.example/x", 200⟩], none,
       [Event.followCall urlA "192.0.2.1",
        Event.hopGet ⟨"http://example.com/a", "example.com", "example.com", "192.0.2.1", "80"⟩,
        Event.resolveCall "https://dns.google/resolve" "other.example",
        Event.dohGet "https://dns.google/resolve?name=other.example&type=A",
        Event.hopGet ⟨"http://other.example/x", "other.example", "other.example",
          "203.0.113.9", "80"⟩]⟩ :=
  ⟨(followRedirects_reresolves_new_host refLib ⟨serverMovedAway, dohAnswers⟩ [] urlA
      "192.0.2.1" 0 (initState [] urlA "192.0.2.1") ⟨301, "http://other.example/x"⟩ urlOther
      (by decide) (by rfl) (by rfl) (by decide) (by decide) (by decide) (by rfl)
      (by decide)).1.1,
   by rfl⟩

theorem responseAt_some (L : Lib) (W : World) (ev : List Event) (originalURL : URL)
    (ip : String) (i : Nat) (r : Response)
    (h : responseAt L W ev originalURL ip i = some r) :
    ∃ st, stateAt L W (initState ev originalURL ip) i = some st ∧
      hopResponse L W st = some r := by
  unfold responseAt at h
  cases hs : stateAt L W (initState ev originalURL ip) i with
  | none => simp [hs] at h
  | some st =>
    rw [hs] at h
    exact ⟨st, rfl, h⟩

/-- Entry `j` of the chain returned by `followRedirects` is the URL requested at hop `j`
with the status of the response received at hop `j`. -/
theorem followRedirects_entry (L : Lib) (W : World) (ev : List Event) (originalURL : URL)
    (ip : String) (j : Nat) (step : redirectStep)
    (h : (followRedirects L W ev originalURL ip).chain[j]? = some step) :
    ∃ st r, stateAt L W (initState ev originalURL ip) j = some st ∧
      hopResponse L W st = some r ∧ responseAt L W ev originalURL ip j = some r ∧
      step = ⟨(hopRequest L st).url, r.StatusCode⟩ := by
  have h0 : (initState ev originalURL ip).chain.length + j = j := by simp [initState]
  unfold followRedirects at h
  rw [← h0] at h
  obtain ⟨st, r, hs, hr, hstep⟩ :=
    followLoop_entry L W maxRedirects j (initState ev originalURL ip) step h
  refine ⟨st, r, hs, hr, ?_, hstep⟩
  simp [responseAt, hs, hr]

/-- C2. For a redirect chain of length `k < 10` ending in a non-redirect status (the
responses received at hops `0 .. k-1` have a status in [300,400) and a `Location`
header, and the response received at hop `k` has a status outside [300,400)),
`followRedirects` returns no error and a chain of exactly `k + 1` entries in request
order: entry `j` is the URL requested at hop `j` with the status of the response
received there, so the first `k` entries carry the redirect statuses and the last one
the final status; for `k = 0` the single entry is the input URL with the status of the
response.  That a response is received at hop `k` includes that every earlier
`Location` could be followed, so every needed re-resolution succeeded. -/
theorem followRedirects_chain_of_k_redirects (L : Lib) (W : World) (ev : List Event)
    (originalURL : URL) (ip : String) (k : Nat) (final : Response)
    (hk : k < maxRedirects)
    (hred : ∀ j, j < k → ∃ r, responseAt L W ev originalURL ip j = some r ∧
      300 ≤ r.StatusCode ∧ r.StatusCode < 400 ∧ r.Location ≠ "")
    (hfinal : responseAt L W ev originalURL ip k = some final)
    (hstatus : final.StatusCode < 300 ∨ final.StatusCode ≥ 400) :
    (followRedirects L W ev originalURL ip).err = none ∧
    (followRedirects L W ev originalURL ip).chain.length = k + 1 ∧
    (∀ j, j ≤ k → ∃ st r, stateAt L W (initState ev originalURL ip) j = some st ∧
      responseAt L W ev originalURL ip j = some r ∧
      (followRedirects L W ev originalURL ip).chain[j]? =
        some ⟨(hopRequest L st).url, r.StatusCode⟩) ∧
    (∀ j, j < k → ∃ step, (followRedirects L W ev originalURL ip).chain[j]? = some step ∧
      300 ≤ step.Status ∧ step.Status < 400) ∧
    (∃ step, (followRedirects L W ev originalURL ip).chain[k]? = some step ∧
      step.Status = final.StatusCode) ∧
    (k = 0 → (followRedirects L W ev originalURL ip).chain =
      [⟨L.urlString originalURL, final.StatusCode⟩]) := by
  obtain ⟨stk, hsk, hrk⟩ := responseAt_some L W ev originalURL ip k final hfinal
  have hres : followRedirects L W ev originalURL ip =
      ⟨stk.chain ++ [hopStep L stk final], none, hopEvents L stk⟩ := by
    rw [followRedirects_from L W ev originalURL ip k stk (Nat.le_of_lt hk) hsk]
    obtain ⟨m, hm⟩ : ∃ m, maxRedirects - k = m + 1 := ⟨maxRedirects - k - 1, by omega⟩
    rw [hm, followLoop_succ, loopBody_of_response L W stk final hrk,
      processResponse_final L W stk final (Or.inl hstatus)]
  have hlen : (followRedirects L W ev originalURL ip).chain.length = k + 1 := by
    rw [hres]
    simp only [List.length_append, List.length_singleton]
    rw [stateAt_chain_length L W _ k stk hsk]
    simp [initState]
  have hentries : ∀ j, j ≤ k → ∃ st r, stateAt L W (initState ev originalURL ip) j = some st ∧
      responseAt L W ev originalURL ip j = some r ∧
      (followRedirects L W ev originalURL ip).chain[j]? =
        some ⟨(hopRequest L st).url, r.StatusCode⟩ := by
    intro j hj
    have hjlt : j < (followRedirects L W ev originalURL ip).chain.length := by omega
    obtain ⟨st, r, hs, _, hr, hstep⟩ := followRedirects_entry L W ev originalURL ip j
      ((followRedirects L W ev originalURL ip).chain[j]) (List.getElem?_eq_getElem hjlt)
    refine ⟨st, r, hs, hr, ?_⟩
    rw [List.getElem?_eq_getElem hjlt, hstep]
  refine ⟨by rw [hres], hlen, hentries, ?_, ?_, ?_⟩
  · intro j hj
    obtain ⟨st, r, _, hr, he⟩ := hentries j (Nat.le_of_lt hj)
    obtain ⟨r2, hr2, h300, h400, _⟩ := hred j hj
    rw [hr] at hr2
    cases hr2
    exact ⟨_, he, h300, h400⟩
  · obtain ⟨st, r, _, hr, he⟩ := hentries k (Nat.le_refl k)
    rw [hfinal] at hr
    cases hr
    exact ⟨_, he, rfl⟩
  · intro hk0
    subst hk0
    simp only [stateAt, Option.some.injEq] at hsk
    subst hsk
    rw [hres]
    rfl

theorem followRedirects_chain_of_k_redirects_witness :
    (followRedirects refLib ⟨serverMovedOnce, dohDown⟩ [] urlA "192.0.2.1").err = none ∧
    (followRedirects refLib ⟨serverMovedOnce, dohDown⟩ [] urlA "192.0.2.1").chain.length = 2 :=
  have h := followRedirects_chain_of_k_redirects refLib ⟨serverMovedOnce, dohDown⟩ [] urlA
    "192.0.2.1" 1 ⟨200, ""⟩ (by decide)
    (fun j hj => by
      have hj0 : j = 0 := by omega
      subst hj0
      exact ⟨⟨301, "/b"⟩, by rfl, by decide, by decide, by decide⟩)
    (by rfl) (by decide)
  ⟨h.1, h.2.1⟩

/-- C1, as stated, fails.  The server answers ten times with `302` and a `Location`; the
first nine stay on the host, the tenth names `elsewhere.example`, and the resolver is
unreachable.  All of the first ten responses are redirects with a `Location`, yet
`followRedirects` returns an error and a nil chain instead of ten entries. -/
theorem followRedirects_tenth_redirect_can_fail :
    (∀ j, j < 10 → ∃ r, responseAt refLib ⟨serverTenth, dohDown⟩ [] urlA "192.0.2.1" j = some r ∧
      300 ≤ r.StatusCode ∧ r.StatusCode < 400 ∧ r.Location ≠ "") ∧
    (followRedirects refLib ⟨serverTenth, dohDown⟩ [] urlA "192.0.2.1").err =
      some "failed to resolve elsewhere.example: dial tcp: connection refused" ∧
    (followRedirects refLib ⟨serverTenth, dohDown⟩ [] urlA "192.0.2.1").chain = [] ∧
    ¬ ((followRedirects refLib ⟨serverTenth, dohDown⟩ [] urlA "192.0.2.1").err = none ∧
       (followRedirects refLib ⟨serverTenth, dohDown⟩ [] urlA "192.0.2.1").chain.length = 10) := by
  refine ⟨?_, by rfl, by rfl, ?_⟩
  · intro j hj
    interval_cases j
    · exact ⟨⟨302, "/a"⟩, by rfl, by decide, by decide, by decide⟩
    · exact ⟨⟨302, "/a"⟩, by rfl, by decide, by decide, by decide⟩
    · exact ⟨⟨302, "/a"⟩, by rfl, by decide, by decide, by decide⟩
    · exact ⟨⟨302, "/a"⟩, by rfl, by decide, by decide, by decide⟩
    · exact ⟨⟨302, "/a"⟩, by rfl, by decide, by decide, by decide⟩
    · exact ⟨⟨302, "/a"⟩, by rfl, by decide, by decide, by decide⟩
    · exact ⟨⟨302, "/a"⟩, by rfl, by decide, by decide, by decide⟩
    · exact ⟨⟨302, "/a"⟩, by rfl, by decide, by decide, by decide⟩
    · exact ⟨⟨302, "/a"⟩, by rfl, by decide, by decide, by decide⟩
    · exact ⟨⟨302, "http://elsewhere.example/"⟩, by rfl, by decide, by decide, by decide⟩
  · intro h
    have h2 : (followRedirects refLib ⟨serverTenth, dohDown⟩ [] urlA "192.0.2.1").chain = [] := by
      rfl
    rw [h2] at h
    simp at h

/-- C1, amended.  For a chain that redirects 10 or more times (the responses received at
hops `0 .. 9` all have a status in [300,400) and a `Location` header), provided the
`Location` of the tenth response also has a target and, when that target names a host
other than the current one, its re-resolution succeeds, `followRedirects` returns no
error and exactly 10 entries, all with a redirect status; for every library, network,
start URL and initial IP. -/
theorem followRedirects_ten_redirects (L : Lib) (W : World) (ev : List Event)
    (originalURL : URL) (ip : String)
    (hred : ∀ j, j < 10 → ∃ r, responseAt L W ev originalURL ip j = some r ∧
      300 ≤ r.StatusCode ∧ r.StatusCode < 400 ∧ r.Location ≠ "")
    (hlast : ∀ st r, stateAt L W (initState ev originalURL ip) 9 = some st →
      hopResponse L W st = some r →
      ∃ newURL, redirectTarget L st.currentURL r.Location = .ok newURL ∧
        (L.hostname newURL ≠ st.host → (reResolution L W st newURL).err = none)) :
    (followRedirects L W ev originalURL ip).err = none ∧
    (followRedirects L W ev originalURL ip).chain.length = 10 ∧
    (∀ step ∈ (followRedirects L W ev originalURL ip).chain,
      300 ≤ step.Status ∧ step.Status < 400) := by
  obtain ⟨r9, hr9, h300, h400, hloc⟩ := hred 9 (by decide)
  obtain ⟨st9, hs9, hresp9⟩ := responseAt_some L W ev originalURL ip 9 r9 hr9
  obtain ⟨newURL, ht, hres⟩ := hlast st9 r9 hs9 hresp9
  obtain ⟨st10, hb⟩ : ∃ st10, loopBody L W st9 = .next st10 := by
    rw [loopBody_of_response L W st9 r9 hresp9,
      processResponse_redirect L W st9 r9 newURL h300 h400 hloc ht]
    by_cases hh : L.hostname newURL ≠ st9.host
    · have hok := hres hh
      unfold reResolution at hok
      rw [if_pos hh, hok]
      exact ⟨_, rfl⟩
    · rw [if_neg hh]
      exact ⟨_, rfl⟩
  have hs10 := stateAt_succ_of_next L W _ st9 st10 9 hs9 hb
  have hres10 : followRedirects L W ev originalURL ip = ⟨st10.chain, none, st10.events⟩ := by
    rw [followRedirects_from L W ev originalURL ip 10 st10 (by decide) hs10]
    rfl
  have hlen : st10.chain.length = 10 := by
    rw [stateAt_chain_length L W _ 10 st10 hs10]
    simp [initState]
  refine ⟨by rw [hres10], by rw [hres10]; exact hlen, ?_⟩
  intro step hstep
  obtain ⟨j, hj, hget⟩ := List.getElem_of_mem hstep
  have hj10 : j < 10 := by
    rw [hres10] at hj
    simp only at hj
    omega
  obtain ⟨st, r, _, _, hr, he⟩ := followRedirects_entry L W ev originalURL ip j step
    (by rw [List.getElem?_eq_getElem hj, hget])
  obtain ⟨r2, hr2, hlo, hhi, _⟩ := hred j hj10
  rw [hr] at hr2
  cases hr2
  rw [he]
  exact ⟨hlo, hhi⟩

theorem followRedirects_ten_redirects_witness :
    (followRedirects refLib ⟨serverLoop, dohDown⟩ [] urlA "192.0.2.1").err = none ∧
    (followRedirects refLib ⟨serverLoop, dohDown⟩ [] urlA "192.0.2.1").chain.length = 10 :=
  have h := followRedirects_ten_redirects refLib ⟨serverLoop, dohDown⟩ [] urlA "192.0.2.1"
    (fun j hj => by
      interval_cases j <;>
        exact ⟨⟨302, "/a"⟩, by rfl, by decide, by decide, by decide⟩)
    (fun st r hst hr => by
      have hst2 : st = ⟨List.replicate 9 ⟨"http://example.com/a", 302⟩, urlA, "example.com",
          "192.0.2.1",
          Event.followCall urlA "192.0.2.1" :: List.replicate 9 (Event.hopGet
            ⟨"http://example.com/a", "example.com", "example.com", "192.0.2.1", "80"⟩)⟩ :=
        Option.some.inj (hst.symm.trans (by rfl))
      subst hst2
      have hr2 : r = ⟨302, "/a"⟩ := Option.some.inj (hr.symm.trans (by rfl))
      subst hr2
      exact ⟨urlA, by rfl, fun hne => absurd (by rfl) hne⟩)
  ⟨h.1, h.2.1⟩

/-- When the redirect target has the hostname held in `host`, the iteration invokes no
resolver and the next iteration starts with the same `ip` and `host`. -/
theorem loopBody_same_host (L : Lib) (W : World) (st : LoopState) (resp : Response)
    (newURL : URL) (hresp : hopResponse L W st = some resp)
    (h300 : 300 ≤ resp.StatusCode) (h400 : resp.StatusCode < 400)
    (hloc : resp.Location ≠ "")
    (ht : redirectTarget L st.currentURL resp.Location = .ok newURL)
    (hhost : L.hostname newURL = st.host) :
    loopBody L W st =
      .next { chain := st.chain ++ [hopStep L st resp], currentURL := newURL,
              host := st.host, ip := st.ip, events := hopEvents L st } := by
  rw [loopBody_of_response L W st resp hresp,
    processResponse_redirect L W st resp newURL h300 h400 hloc ht]
  simp [hhost]

/-- C3 fails on the code.  Start URL `http://example.com:8080/a`, first response `301`
with `Location: /b`.  The target `http://example.com:8080/b` names the same host as the
current URL, yet `host` was initialised with `originalURL.Host`, which carries the
port, and is compared with `newURL.Hostname()`, which does not: `resolveDoH` is invoked
for `example.com`, and the next request is dialed at the newly resolved ip with
`Host: example.com` instead of the same ip and host. -/
theorem followRedirects_explicit_port_reresolves :
    refLib.urlParse "http://example.com:8080/a" = .ok urlPortA ∧
    redirectTarget refLib urlPortA "/b" = .ok urlPortB ∧
    refLib.hostname urlPortB = refLib.hostname urlPortA ∧
    followRedirects refLib ⟨serverMovedOnce, dohAnswers⟩ [] urlPortA "192.0.2.1" =
      ⟨[⟨"http://example.com:8080/a", 301⟩, ⟨"http://example.com:8080/b", 200⟩], none,
       [Event.followCall urlPortA "192.0.2.1",
        Event.hopGet ⟨"http://example.com:8080/a", "example.com:8080", "example.com:8080",
          "192.0.2.1", "80"⟩,
        Event.resolveCall "https://dns.google/resolve" "example.com",
        Event.dohGet "https://dns.google/resolve?name=example.com&type=A",
        Event.hopGet ⟨"http://example.com:8080/b", "example.com", "example.com",
          "203.0.113.9", "80"⟩]⟩ ∧
    (followRedirects refLib ⟨serverMovedOnce, dohDown⟩ [] urlPortA "192.0.2.1").err =
      some "failed to resolve example.com: dial tcp: connection refused" := by
  refine ⟨by rfl, by rfl, by rfl, by rfl, by rfl⟩

theorem resolveDoH_returns_first_valid_ip_witness :
    (resolveDoH refLib ⟨serverLoop, dohExample⟩ [] "https://dns.google/resolve"
      "example.com").ip = "198.51.100.7" ∧
    (resolveDoH refLib ⟨serverLoop, dohExample⟩ [] "https://dns.google/resolve"
      "example.com").err = none :=
  resolveDoH_returns_first_valid_ip refLib ⟨serverLoop, dohExample⟩ []
    "https://dns.google/resolve" "example.com" [] [] "198.51.100.7" "198.51.100.7"
    (by rfl) (by rfl) (by simp) (by rfl)

/-! ## Properties of `redirectHandler` -/

/-- C9. For every request to `redirectHandler`: a method other than GET yields 405;
otherwise an empty `doh` or `url` parameter yields 400 with the message
"Missing 'doh' or 'url' parameters"; otherwise a `url` that does not parse, or parses
with an empty scheme or an empty host, yields 400 with the message
"Invalid 'url' parameter".  In all three cases the event log is empty: neither
`resolveDoH` nor `followRedirects` is entered and no request is sent. -/
theorem redirectHandler_rejects_bad_requests (L : Lib) (W : World) (r : HandlerRequest) :
    (r.method ≠ "GET" →
      redirectHandler L W r = (.httpError "Only GET allowed" 405, [])) ∧
    (r.method = "GET" → (r.doh = "" ∨ r.rawURL = "") →
      redirectHandler L W r = (.httpError "Missing 'doh' or 'url' parameters" 400, [])) ∧
    (r.method = "GET" → r.doh ≠ "" → r.rawURL ≠ "" →
      (∀ u, L.urlParse r.rawURL = .ok u → u.Scheme = "" ∨ u.Host = "") →
      redirectHandler L W r = (.httpError "Invalid 'url' parameter" 400, [])) := by
  refine ⟨?_, ?_, ?_⟩
  · intro hm
    simp [redirectHandler, hm]
  · intro hm hq
    simp [redirectHandler, hm, hq]
  · intro hm hd hu hbad
    have hq : ¬ (r.doh = "" ∨ r.rawURL = "") := by
      rintro (h | h)
      · exact hd h
      · exact hu h
    cases hp : L.urlParse r.rawURL with
    | error e => simp [redirectHandler, hm, hq, hp]
    | ok u =>
      have hb := hbad u hp
      simp [redirectHandler, hm, hq, hp, hb]

theorem redirectHandler_rejects_bad_requests_witness :
    redirectHandler refLib ⟨serverLoop, dohExample⟩ ⟨"POST", "https://dns.google/resolve",
        "http://example.com/a"⟩ = (.httpError "Only GET allowed" 405, []) ∧
    redirectHandler refLib ⟨serverLoop, dohExample⟩ ⟨"GET", "https://dns.google/resolve", ""⟩ =
      (.httpError "Missing 'doh' or 'url' parameters" 400, []) ∧
    redirectHandler refLib ⟨serverLoop, dohExample⟩ ⟨"GET", "https://dns.google/resolve",
        "example.com/a"⟩ = (.httpError "Invalid 'url' parameter" 400, []) :=
  ⟨(redirectHandler_rejects_bad_requests refLib ⟨serverLoop, dohExample⟩
      ⟨"POST", "https://dns.google/resolve", "http://example.com/a"⟩).1 (by decide),
   (redirectHandler_rejects_bad_requests refLib ⟨serverLoop, dohExample⟩
      ⟨"GET", "https://dns.google/resolve", ""⟩).2.1 (by rfl) (Or.inr (by rfl)),
   (redirectHandler_rejects_bad_requests refLib ⟨serverLoop, dohExample⟩
      ⟨"GET", "https://dns.google/resolve", "example.com/a"⟩).2.2 (by rfl) (by decide)
      (by decide) (fun u hu => by
        have hu2 : u = ⟨"", "", "", "example.com/a", "", ""⟩ :=
          Except.ok.inj (hu.symm.trans (by rfl))
        subst hu2
        exact Or.inl (by rfl))⟩

end Redirector
